import Mathlib

/-!
Verification of the Ultimate Tic-Tac-Toe engine (`uttt.js`, class `UTTT`).

The engine is a deterministic state machine over a 9x9 board (9 sub-boards of
9 cells).  We embed it shallowly: the mutable class instance becomes an
explicit `GameState` value, and the mutating method `makeMove` becomes a pure
function returning the JavaScript boolean result together with the updated
state.  JavaScript `null` is `Option.none`; the strings `'X'`, `'O'`, `'D'`
are the inductive `Outcome`.
-/

namespace UTTT

/-- The values `'X'`, `'O'`, `'D'` stored in cells and outcome arrays.
JavaScript `null` (no value) is modelled as `Option.none` around this type. -/
inductive Outcome where
  | X : Outcome
  | O : Outcome
  | D : Outcome
deriving DecidableEq, Repr

/-- A win line: an ordered triple of indices, as in `WIN_LINES`. -/
abbrev Line : Type := Fin 9 × Fin 9 × Fin 9

/-- `UTTT.WIN_LINES = [[0,1,2],[3,4,5],[6,7,8],[0,3,6],[1,4,7],[2,5,8],[0,4,8],[2,4,6]]`. -/
def WIN_LINES : List Line :=
  [(0, 1, 2), (3, 4, 5), (6, 7, 8), (0, 3, 6), (1, 4, 7), (2, 5, 8), (0, 4, 8), (2, 4, 6)]

/-- Result of `checkWin`: the `{ winner, line }` object. -/
structure WinResult where
  winner : Option Outcome
  line : Option Line
deriving DecidableEq, Repr

/-- The `for (const [a,b,c] of UTTT.WIN_LINES)` loop body of `checkWin`:
return the first line `[a,b,c]` whose three entries are equal and truthy
(`board[a] && board[a] === board[b] && board[a] === board[c]`), with its
owner. -/
def findLine (board : Fin 9 → Option Outcome) : List Line → Option (Outcome × Line)
  | [] => none
  | l :: ls =>
    match board l.1 with
    | some v =>
      if board l.2.1 = some v ∧ board l.2.2 = some v then some (v, l)
      else findLine board ls
    | none => findLine board ls

/-- `UTTT.checkWin(board)`: first matching line with owner; otherwise draw
when every entry is truthy (`board.every(Boolean)`); otherwise undecided. -/
def checkWin (board : Fin 9 → Option Outcome) : WinResult :=
  match findLine board WIN_LINES with
  | some (v, l) => { winner := some v, line := some l }
  | none =>
    if (List.finRange 9).all (fun i => (board i).isSome) then
      { winner := some Outcome.D, line := none }
    else
      { winner := none, line := none }

/-- `this.boardWinners.filter(w => w === o).length`. -/
def countOutcome (bw : Fin 9 → Option Outcome) (o : Outcome) : Nat :=
  ((List.finRange 9).filter (fun i => bw i = some o)).length

/-- `UTTT.checkGameWinner()`, as a pure function of the fields it reads:
`this.boardWinners` and (for the untouched case) the previous
`this.gameWinLine`.  Returns the pair (returned winner, new `gameWinLine`). -/
def checkGameWinner (bw : Fin 9 → Option Outcome) (oldLine : Option Line) :
    Option Outcome × Option Line :=
  let res := checkWin bw
  let fallback : Option Outcome × Option Line :=
    if (List.finRange 9).all (fun i => (bw i).isSome) then
      let x := countOutcome bw Outcome.X
      let o := countOutcome bw Outcome.O
      (some (if o < x then Outcome.X else if x < o then Outcome.O else Outcome.D), oldLine)
    else
      (none, oldLine)
  match res.winner with
  | some w => if w = Outcome.D then fallback else (some w, res.line)
  | none => fallback

/-- One recorded move of `this.moveHistory`: `{ board, cell, player, snapshot }`.
The snapshot type is declared below; to keep a single non-recursive record we
inline the snapshot fields produced by `getState` here via `Snapshot`. -/
structure Snapshot where
  boards : Fin 9 → Fin 9 → Option Outcome
  winners : Fin 9 → Option Outcome
  boardWinLines : Fin 9 → Option Line
  forced : Option (Fin 9)
  lastMove : Option (Fin 9 × Fin 9)
  player : Outcome
  gameWinner : Option Outcome
  gameWinLine : Option Line
  started : Bool

/-- An entry of `this.moveHistory`. -/
structure MoveRecord where
  board : Fin 9
  cell : Fin 9
  player : Outcome
  snapshot : Snapshot

/-- The mutable fields of a `UTTT` instance. -/
structure GameState where
  boards : Fin 9 → Fin 9 → Option Outcome
  boardWinners : Fin 9 → Option Outcome
  boardWinLines : Fin 9 → Option Line
  currentPlayer : Outcome
  forcedBoard : Option (Fin 9)
  gameWinner : Option Outcome
  gameWinLine : Option Line
  lastMove : Option (Fin 9 × Fin 9)
  moveHistory : List MoveRecord

/-- The `UTTT` constructor: empty boards, all outcomes `null`, `X` to move,
no forced board, no winner, empty history. -/
def initState : GameState where
  boards := fun _ _ => none
  boardWinners := fun _ => none
  boardWinLines := fun _ => none
  currentPlayer := Outcome.X
  forcedBoard := none
  gameWinner := none
  gameWinLine := none
  lastMove := none
  moveHistory := []

/-- `this.currentPlayer === 'X' ? 'O' : 'X'`. -/
def flipPlayer (p : Outcome) : Outcome :=
  if p = Outcome.X then Outcome.O else Outcome.X

/-- `UTTT.getState()`: the public snapshot projection (deep copies are
identities in the pure model; `started` is always `true`). -/
def getState (s : GameState) : Snapshot where
  boards := s.boards
  winners := s.boardWinners
  boardWinLines := s.boardWinLines
  forced := s.forcedBoard
  lastMove := s.lastMove
  player := s.currentPlayer
  gameWinner := s.gameWinner
  gameWinLine := s.gameWinLine
  started := true

/-- The mutation part of `UTTT.makeMove(b, c)` that runs after the four
precondition checks have passed, in source order: place the mark
(`this.boards[b][c] = player`), record `lastMove`, evaluate the target
sub-board (`checkWin(this.boards[b])` reads the just-updated row, which is
`row1` here), re-evaluate the game winner, compute the next forced board
from the updated `boardWinners`, flip the player, push the history entry
(whose snapshot is `getState()` of the fully updated instance). -/
def applyMove (s : GameState) (b c : Fin 9) : GameState :=
  let player := s.currentPlayer
  let row1 := Function.update (s.boards b) c (some player)
  let res := checkWin row1
  let boardWinners1 :=
    match res.winner with
    | some w => Function.update s.boardWinners b (some w)
    | none => s.boardWinners
  let boardWinLines1 :=
    match res.winner with
    | some w =>
      if w = Outcome.D then s.boardWinLines
      else Function.update s.boardWinLines b res.line
    | none => s.boardWinLines
  let gw := checkGameWinner boardWinners1 s.gameWinLine
  let s3 : GameState :=
    { boards := Function.update s.boards b row1
      boardWinners := boardWinners1
      boardWinLines := boardWinLines1
      currentPlayer := flipPlayer player
      forcedBoard := if boardWinners1 c = none then some c else none
      gameWinner := gw.1
      gameWinLine := gw.2
      lastMove := some (b, c)
      moveHistory := s.moveHistory }
  { s3 with
      moveHistory :=
        s3.moveHistory ++ [{ board := b, cell := c, player := player, snapshot := getState s3 }] }

/-- `UTTT.makeMove(b, c)`: the four early-return precondition checks in
source order, then the mutation; the `Bool` is the JavaScript return value
and the `GameState` the mutated instance. -/
def makeMove (s : GameState) (b c : Fin 9) : Bool × GameState :=
  if s.gameWinner ≠ none then (false, s)
  else if s.boardWinners b ≠ none then (false, s)
  else if s.forcedBoard ≠ none ∧ s.forcedBoard ≠ some b then (false, s)
  else if s.boards b c ≠ none then (false, s)
  else (true, applyMove s b c)

/-- An input entry of `UTTT.buildSnapshots`: `{ board, cell, player }`. -/
structure HistEntry where
  board : Fin 9
  cell : Fin 9
  player : Outcome
deriving DecidableEq, Repr

/-- The loop of `UTTT.buildSnapshots`, with the engine state made explicit. -/
def buildSnapshotsGo (s : GameState) : List HistEntry → List (HistEntry × Snapshot)
  | [] => []
  | m :: rest =>
    let s1 := (makeMove s m.board m.cell).2
    (m, getState s1) :: buildSnapshotsGo s1 rest

/-- `UTTT.buildSnapshots(history)`: construct a fresh engine, attempt each
entry in order (ignoring the boolean result), and pair every entry with the
snapshot taken right after the attempt. -/
def buildSnapshots (history : List HistEntry) : List (HistEntry × Snapshot) :=
  buildSnapshotsGo initState history

/-- States reachable from the constructor state by any sequence of
`makeMove` calls with in-range arguments. -/
inductive Reachable : GameState → Prop where
  | init : Reachable initState
  | step (s : GameState) (b c : Fin 9) : Reachable s → Reachable (makeMove s b c).2

/-- The runtime error JavaScript raises when a property of `undefined` is
read, as happens for `this.boards[b][c]` when `b` is out of range. -/
inductive JSError where
  | typeError
deriving DecidableEq, Repr

/-- JavaScript array indexing on a 9-element array with an arbitrary
natural-number index: in range yields the element, out of range yields
`undefined`, modelled as the outer `none`. -/
def jsIndex {α : Type} (f : Fin 9 → α) (i : Nat) : Option α :=
  if h : i < 9 then some (f ⟨i, h⟩) else none

/-- The condition `this.forcedBoard !== null && b !== this.forcedBoard` with
`b` an arbitrary natural number (`forcedBoard` itself is always `null` or a
number 0..8 stored by the engine). -/
def jsForcedMismatch (forced : Option (Fin 9)) (b : Nat) : Bool :=
  match forced with
  | some f => decide (b ≠ f.val)
  | none => false

/-- `UTTT.makeMove(b, c)` under JavaScript dynamic semantics, for arbitrary
natural-number arguments.  `this.boardWinners[b]` is `undefined` (falsy) out
of range; `this.boards[b]` is `undefined` out of range, and reading `[c]`
from it throws a `TypeError`; `this.boards[b][c]` is `undefined` for an
out-of-range `c`, and `undefined !== null` holds, so such a move is
rejected like an occupied cell. -/
def makeMoveJS (s : GameState) (b c : Nat) : Except JSError (Bool × GameState) :=
  if s.gameWinner ≠ none then Except.ok (false, s)
  else if (jsIndex s.boardWinners b).join ≠ none then Except.ok (false, s)
  else if jsForcedMismatch s.forcedBoard b then Except.ok (false, s)
  else if hb : b < 9 then
    if hc : c < 9 then
      if s.boards ⟨b, hb⟩ ⟨c, hc⟩ ≠ none then Except.ok (false, s)
      else Except.ok (true, applyMove s ⟨b, hb⟩ ⟨c, hc⟩)
    else Except.ok (false, s)
  else Except.error JSError.typeError

/-! Basic lemmas about the embedded operations. -/

/-- A move for which some precondition fails returns `false` and leaves the
state unchanged. -/
theorem makeMove_of_fail {s : GameState} {b c : Fin 9}
    (h : s.gameWinner ≠ none ∨ s.boardWinners b ≠ none ∨
      (s.forcedBoard ≠ none ∧ s.forcedBoard ≠ some b) ∨ s.boards b c ≠ none) :
    makeMove s b c = (false, s) := by
  unfold makeMove
  split_ifs with h1 h2 h3 h4 <;> first | rfl | tauto

/-- A move for which every precondition holds returns `true` with the
mutated state. -/
theorem makeMove_of_ok {s : GameState} {b c : Fin 9}
    (h : ¬(s.gameWinner ≠ none ∨ s.boardWinners b ≠ none ∨
      (s.forcedBoard ≠ none ∧ s.forcedBoard ≠ some b) ∨ s.boards b c ≠ none)) :
    makeMove s b c = (true, applyMove s b c) := by
  unfold makeMove
  split_ifs with h1 h2 h3 h4 <;> first | rfl | tauto

/-- A rejected move leaves the state unchanged. -/
theorem makeMove_snd_of_false {s : GameState} {b c : Fin 9}
    (h : (makeMove s b c).1 = false) : (makeMove s b c).2 = s := by
  by_cases hp : s.gameWinner ≠ none ∨ s.boardWinners b ≠ none ∨
      (s.forcedBoard ≠ none ∧ s.forcedBoard ≠ some b) ∨ s.boards b c ≠ none
  · rw [makeMove_of_fail hp]
  · rw [makeMove_of_ok hp] at h
    exact absurd h (by simp)

/-- The sub-board result `applyMove` computes, as a standalone value. -/
def subResult (s : GameState) (b c : Fin 9) : WinResult :=
  checkWin (Function.update (s.boards b) c (some s.currentPlayer))

theorem applyMove_boardWinners_def (s : GameState) (b c : Fin 9) :
    (applyMove s b c).boardWinners =
      match (subResult s b c).winner with
      | some w => Function.update s.boardWinners b (some w)
      | none => s.boardWinners := rfl

theorem applyMove_boards_def (s : GameState) (b c : Fin 9) :
    (applyMove s b c).boards =
      Function.update s.boards b
        (Function.update (s.boards b) c (some s.currentPlayer)) := rfl

theorem applyMove_forcedBoard_def (s : GameState) (b c : Fin 9) :
    (applyMove s b c).forcedBoard =
      if (applyMove s b c).boardWinners c = none then some c else none := rfl

theorem applyMove_moveHistory_def (s : GameState) (b c : Fin 9) :
    (applyMove s b c).moveHistory =
      s.moveHistory ++
        [{ board := b, cell := c, player := s.currentPlayer,
           snapshot := getState (applyMove s b c) }] := rfl

/-- `boardWinners` entries of other sub-boards are untouched by a move. -/
theorem applyMove_boardWinners_other (s : GameState) (b c i : Fin 9) (h : i ≠ b) :
    (applyMove s b c).boardWinners i = s.boardWinners i := by
  rw [applyMove_boardWinners_def]
  cases hv : (subResult s b c).winner with
  | none => rfl
  | some w => exact Function.update_noteq h _ _

/-- Cells of other sub-boards are untouched by a move. -/
theorem applyMove_boards_other (s : GameState) (b c i : Fin 9) (h : i ≠ b) :
    (applyMove s b c).boards i = s.boards i := by
  rw [applyMove_boards_def]
  exact Function.update_noteq h _ _

/-- The majority count the meta-draw tie-break produces. -/
def majorityWinner (bw : Fin 9 → Option Outcome) : Outcome :=
  if countOutcome bw Outcome.O < countOutcome bw Outcome.X then Outcome.X
  else if countOutcome bw Outcome.X < countOutcome bw Outcome.O then Outcome.O
  else Outcome.D

/-- With no decisive meta line and at least one open sub-board,
`checkGameWinner` returns `null` and leaves `gameWinLine` alone. -/
theorem checkGameWinner_open (bw : Fin 9 → Option Outcome) (gwl : Option Line)
    (hnd : (checkWin bw).winner = none ∨ (checkWin bw).winner = some Outcome.D)
    (hopen : ∃ i, bw i = none) :
    checkGameWinner bw gwl = (none, gwl) := by
  obtain ⟨i, hi⟩ := hopen
  have hall : ((List.finRange 9).all fun j => (bw j).isSome) = false := by
    rw [List.all_eq_false]
    exact ⟨i, List.mem_finRange i, by simp [hi]⟩
  simp only [checkGameWinner]
  rcases hnd with h | h <;> rw [h] <;> simp [hall]

/-- With no decisive meta line and all sub-boards closed, `checkGameWinner`
returns the majority winner and leaves `gameWinLine` alone. -/
theorem checkGameWinner_full (bw : Fin 9 → Option Outcome) (gwl : Option Line)
    (hnd : (checkWin bw).winner = none ∨ (checkWin bw).winner = some Outcome.D)
    (hfull : ∀ i, bw i ≠ none) :
    checkGameWinner bw gwl = (some (majorityWinner bw), gwl) := by
  have hall : ((List.finRange 9).all fun j => (bw j).isSome) = true := by
    rw [List.all_eq_true]
    exact fun j _ => by simpa [Option.isSome_iff_ne_none] using hfull j
  simp only [checkGameWinner, majorityWinner]
  rcases hnd with h | h <;> rw [h] <;> simp [hall]

/-- With a decisive meta line, `checkGameWinner` returns its owner and sets
`gameWinLine` to the line `checkWin` found. -/
theorem checkGameWinner_decisive (bw : Fin 9 → Option Outcome) (gwl : Option Line)
    (w : Outcome) (hw : (checkWin bw).winner = some w) (hD : w ≠ Outcome.D) :
    checkGameWinner bw gwl = (some w, (checkWin bw).line) := by
  simp only [checkGameWinner]
  rw [hw]
  simp [hD]

/-! Claim theorems. -/

/-- C1: `makeMove(board, cell)` returns failure and leaves every state field
unchanged if and only if at least one of the four preconditions fails — the
game is terminal, the target sub-board is closed, a forced board is active
and differs from `board`, or the target cell is occupied (in that source
order); when all preconditions hold the move is accepted (returns `true`). -/
theorem makeMove_reject_iff (s : GameState) (b c : Fin 9) (hr : Reachable s) :
    (makeMove s b c = (false, s) ↔
      s.gameWinner ≠ none ∨ s.boardWinners b ≠ none ∨
        (s.forcedBoard ≠ none ∧ s.forcedBoard ≠ some b) ∨ s.boards b c ≠ none) ∧
    (¬(s.gameWinner ≠ none ∨ s.boardWinners b ≠ none ∨
        (s.forcedBoard ≠ none ∧ s.forcedBoard ≠ some b) ∨ s.boards b c ≠ none) →
      (makeMove s b c).1 = true) := by
  constructor
  · constructor
    · intro h
      by_contra hp
      rw [makeMove_of_ok hp] at h
      exact absurd (congrArg Prod.fst h) (by simp)
    · exact makeMove_of_fail
  · intro hp
    rw [makeMove_of_ok hp]

/-- Witness for C1 at the initial state and move `(0,0)`: no precondition
fails there, so the move is accepted. -/
theorem makeMove_reject_iff_witness :
    (makeMove initState 0 0 = (false, initState) ↔
      initState.gameWinner ≠ none ∨ initState.boardWinners 0 ≠ none ∨
        (initState.forcedBoard ≠ none ∧ initState.forcedBoard ≠ some 0) ∨
        initState.boards 0 0 ≠ none) ∧
    (¬(initState.gameWinner ≠ none ∨ initState.boardWinners 0 ≠ none ∨
        (initState.forcedBoard ≠ none ∧ initState.forcedBoard ≠ some 0) ∨
        initState.boards 0 0 ≠ none) →
      (makeMove initState 0 0).1 = true) :=
  makeMove_reject_iff initState 0 0 Reachable.init

/-- C2: in every reachable state, `forcedBoard` is `null` or the index of a
sub-board whose `boardWinners` entry is still `null`. -/
theorem forcedBoard_open (s : GameState) (i : Fin 9) (h : Reachable s)
    (hf : s.forcedBoard = some i) : s.boardWinners i = none := by
  induction h with
  | init => exact absurd hf (by simp [initState])
  | step s' b c hs ih =>
    by_cases hp : s'.gameWinner ≠ none ∨ s'.boardWinners b ≠ none ∨
        (s'.forcedBoard ≠ none ∧ s'.forcedBoard ≠ some b) ∨ s'.boards b c ≠ none
    · rw [makeMove_of_fail hp] at hf ⊢
      exact ih hf
    · rw [makeMove_of_ok hp] at hf ⊢
      rw [applyMove_forcedBoard_def] at hf
      by_cases hbw : (applyMove s' b c).boardWinners c = none
      · rw [if_pos hbw] at hf
        obtain rfl : c = i := Option.some.inj hf
        exact hbw
      · rw [if_neg hbw] at hf
        exact absurd hf (by simp)

/-- Witness for C2 after the single accepted move `(4,4)` from the initial
state: `forcedBoard` is `4` and sub-board 4 is still open. -/
theorem forcedBoard_open_witness :
    (makeMove initState 4 4).2.boardWinners 4 = none :=
  forcedBoard_open (makeMove initState 4 4).2 4
    (Reachable.step initState 4 4 Reachable.init) (by decide)

/-- C3: once a reachable state has `boardWinners[i]` decided, any further
`makeMove` leaves both `boardWinners[i]` and every cell of sub-board `i`
unchanged. -/
theorem closed_board_frozen (s : GameState) (i b c : Fin 9) (hr : Reachable s)
    (hw : s.boardWinners i ≠ none) :
    (makeMove s b c).2.boardWinners i = s.boardWinners i ∧
      (makeMove s b c).2.boards i = s.boards i := by
  by_cases hp : s.gameWinner ≠ none ∨ s.boardWinners b ≠ none ∨
      (s.forcedBoard ≠ none ∧ s.forcedBoard ≠ some b) ∨ s.boards b c ≠ none
  · rw [makeMove_of_fail hp]
    exact ⟨rfl, rfl⟩
  · rw [makeMove_of_ok hp]
    have hbopen : s.boardWinners b = none := by
      by_contra hb
      exact hp (Or.inr (Or.inl hb))
    have hib : i ≠ b := fun he => hw (he ▸ hbopen)
    exact ⟨applyMove_boardWinners_other s b c i hib, applyMove_boards_other s b c i hib⟩

/-- Witness for C3: after six moves O completes line `[3,4,5]` of sub-board
0; a further move at `(5,1)` touches neither `boardWinners[0]` nor the cells
of sub-board 0. -/
theorem closed_board_frozen_witness :
    (makeMove (makeMove (makeMove (makeMove (makeMove (makeMove (makeMove
        initState 5 0).2 0 3).2 3 0).2 0 4).2 4 0).2 0 5).2 5 1).2.boardWinners 0 =
      (makeMove (makeMove (makeMove (makeMove (makeMove (makeMove
        initState 5 0).2 0 3).2 3 0).2 0 4).2 4 0).2 0 5).2.boardWinners 0 ∧
    (makeMove (makeMove (makeMove (makeMove (makeMove (makeMove (makeMove
        initState 5 0).2 0 3).2 3 0).2 0 4).2 4 0).2 0 5).2 5 1).2.boards 0 =
      (makeMove (makeMove (makeMove (makeMove (makeMove (makeMove
        initState 5 0).2 0 3).2 3 0).2 0 4).2 4 0).2 0 5).2.boards 0 :=
  closed_board_frozen _ 0 5 1
    (Reachable.step _ 0 5 (Reachable.step _ 4 0 (Reachable.step _ 0 4
      (Reachable.step _ 3 0 (Reachable.step _ 0 3
        (Reachable.step _ 5 0 Reachable.init))))))
    (by decide)

/-- C5: after every accepted move `(b, c)`, the new `forcedBoard` is `c`
when sub-board `c` is still open in the post-move state (the sub-board
evaluation of this very move included), and `null` when it is closed. -/
theorem forcedBoard_send_rule (s : GameState) (b c : Fin 9)
    (h : (makeMove s b c).1 = true) :
    (makeMove s b c).2.forcedBoard =
      if (makeMove s b c).2.boardWinners c = none then some c else none := by
  by_cases hp : s.gameWinner ≠ none ∨ s.boardWinners b ≠ none ∨
      (s.forcedBoard ≠ none ∧ s.forcedBoard ≠ some b) ∨ s.boards b c ≠ none
  · rw [makeMove_of_fail hp] at h
    exact absurd h (by simp)
  · rw [makeMove_of_ok hp]
    exact applyMove_forcedBoard_def s b c

/-- Witness for C5: the spec scenario — from the empty state, X plays
`(4,4)`; the move is accepted, `forcedBoard` becomes `4` and O is to move. -/
theorem forcedBoard_send_rule_witness :
    ((makeMove initState 4 4).2.forcedBoard =
      if (makeMove initState 4 4).2.boardWinners 4 = none then some 4 else none) ∧
    (makeMove initState 4 4).2.forcedBoard = some 4 ∧
    (makeMove initState 4 4).2.currentPlayer = Outcome.O :=
  ⟨forcedBoard_send_rule initState 4 4 (by decide), by decide, by decide⟩

/-- C4: the majority tie-break fires only when every sub-board is decided
and `checkWin` found no decisive meta line; it then elects the player with
strictly more won sub-boards (drawn sub-boards count for neither) and `D`
on an exact tie.  With an open sub-board and no decisive meta line the game
winner stays `null`, and with a decisive meta line its owner wins outright. -/
theorem majority_tiebreak (bw : Fin 9 → Option Outcome) (gwl : Option Line) :
    (((checkWin bw).winner = none ∨ (checkWin bw).winner = some Outcome.D) →
      (∃ i, bw i = none) → checkGameWinner bw gwl = (none, gwl)) ∧
    (((checkWin bw).winner = none ∨ (checkWin bw).winner = some Outcome.D) →
      (∀ i, bw i ≠ none) →
      checkGameWinner bw gwl =
        (some (if countOutcome bw Outcome.O < countOutcome bw Outcome.X then Outcome.X
          else if countOutcome bw Outcome.X < countOutcome bw Outcome.O then Outcome.O
          else Outcome.D), gwl)) ∧
    (∀ w : Outcome, (checkWin bw).winner = some w → w ≠ Outcome.D →
      checkGameWinner bw gwl = (some w, (checkWin bw).line)) := by
  refine ⟨checkGameWinner_open bw gwl, fun hnd hfull => ?_, checkGameWinner_decisive bw gwl⟩
  rw [checkGameWinner_full bw gwl hnd hfull]
  rfl

/-- Witness for C4 on a fully closed meta-board with no 3-in-a-row, won
sub-boards split 5-4 for X: the tie-break elects X. -/
theorem majority_tiebreak_witness :
    checkGameWinner
      ![some Outcome.X, some Outcome.X, some Outcome.O,
        some Outcome.O, some Outcome.O, some Outcome.X,
        some Outcome.X, some Outcome.X, some Outcome.O] none =
      (some Outcome.X, none) := by
  rw [(majority_tiebreak
    ![some Outcome.X, some Outcome.X, some Outcome.O,
      some Outcome.O, some Outcome.O, some Outcome.X,
      some Outcome.X, some Outcome.X, some Outcome.O] none).2.1
    (by decide) (by decide)]
  decide

/-- C9 (implicit): when the first matching meta line found by `checkWin` is
a line of three drawn sub-boards, `checkGameWinner` treats the meta-board as
having no decisive line — even if a later line holds three `X` or three `O`
entries — so the game continues while some sub-board is open, and the
majority tie-break decides once all are closed. -/
theorem drawn_line_not_decisive (bw : Fin 9 → Option Outcome) (gwl : Option Line)
    (t : Line) (h : checkWin bw = { winner := some Outcome.D, line := some t }) :
    ((∃ i, bw i = none) → checkGameWinner bw gwl = (none, gwl)) ∧
    ((∀ i, bw i ≠ none) →
      checkGameWinner bw gwl =
        (some (if countOutcome bw Outcome.O < countOutcome bw Outcome.X then Outcome.X
          else if countOutcome bw Outcome.X < countOutcome bw Outcome.O then Outcome.O
          else Outcome.D), gwl)) := by
  have hnd : (checkWin bw).winner = none ∨ (checkWin bw).winner = some Outcome.D :=
    Or.inr (by rw [h])
  refine ⟨checkGameWinner_open bw gwl hnd, fun hfull => ?_⟩
  rw [checkGameWinner_full bw gwl hnd hfull]
  rfl

/-- Witness for C9: meta-board `[D,D,D,X,X,X,-,-,-]` — the first line is
three draws, line `[3,4,5]` is three `X`s, yet the game winner stays `null`
because sub-boards 6..8 are open. -/
theorem drawn_line_not_decisive_witness :
    checkGameWinner
      ![some Outcome.D, some Outcome.D, some Outcome.D,
        some Outcome.X, some Outcome.X, some Outcome.X,
        none, none, none] none = (none, none) :=
  (drawn_line_not_decisive
    ![some Outcome.D, some Outcome.D, some Outcome.D,
      some Outcome.X, some Outcome.X, some Outcome.X,
      none, none, none] none (0, 1, 2) (by decide)).1 ⟨6, by decide⟩

/-- C7 counterexample: the JavaScript return value of an accepted
`makeMove` is the bare boolean `true`; the two distinct accepted first moves
`(4,4)` and `(0,0)` produce identical return values but different post-move
snapshots, so the return value does not carry the snapshot. -/
theorem makeMove_returns_bare_true :
    (makeMove initState 4 4).1 = true ∧
    (makeMove initState 0 0).1 = true ∧
    (makeMove initState 4 4).1 = (makeMove initState 0 0).1 ∧
    getState (makeMove initState 4 4).2 ≠ getState (makeMove initState 0 0).2 := by
  refine ⟨by decide, by decide, by decide, fun h => ?_⟩
  have h1 : (getState (makeMove initState 4 4).2).lastMove =
      some ((4 : Fin 9), (4 : Fin 9)) := by decide
  rw [h] at h1
  have h2 : (getState (makeMove initState 0 0).2).lastMove =
      some ((0 : Fin 9), (0 : Fin 9)) := by decide
  rw [h2] at h1
  exact absurd h1 (by decide)

/-- C7 amended: on every accepted move `makeMove` returns the bare boolean
`true`, and appends to `moveHistory` one entry pairing the move and mover
with the public state snapshot (`getState`) of the post-move state. -/
theorem accepted_move_records_snapshot (s : GameState) (b c : Fin 9)
    (h : (makeMove s b c).1 = true) :
    (makeMove s b c).2.moveHistory =
      s.moveHistory ++
        [{ board := b, cell := c, player := s.currentPlayer,
           snapshot := getState (makeMove s b c).2 }] := by
  by_cases hp : s.gameWinner ≠ none ∨ s.boardWinners b ≠ none ∨
      (s.forcedBoard ≠ none ∧ s.forcedBoard ≠ some b) ∨ s.boards b c ≠ none
  · rw [makeMove_of_fail hp] at h
    exact absurd h (by simp)
  · rw [makeMove_of_ok hp]
    exact applyMove_moveHistory_def s b c

/-- Witness for C7 amended at the first move `(4,4)`. -/
theorem accepted_move_records_snapshot_witness :
    (makeMove initState 4 4).2.moveHistory =
      initState.moveHistory ++
        [{ board := 4, cell := 4, player := initState.currentPlayer,
           snapshot := getState (makeMove initState 4 4).2 }] :=
  accepted_move_records_snapshot initState 4 4 (by decide)

/-- Truthy-and-equal test for one line, as a boolean predicate. -/
def lineMatches (board : Fin 9 → Option Outcome) (l : Line) : Bool :=
  (board l.1).isSome && (board l.2.1 == board l.1) && (board l.2.2 == board l.1)

/-- Modelled from the spec: the win-line check described in §4.1 — scan the
8 fixed lines in the stated order, return the first whose three positions
hold equal non-empty values together with its owner; if none matches and all
9 positions are non-empty, a draw with no line; otherwise undecided. -/
def checkWinSpec (board : Fin 9 → Option Outcome) : WinResult :=
  match ([((0 : Fin 9), (1 : Fin 9), (2 : Fin 9)), (3, 4, 5), (6, 7, 8), (0, 3, 6),
      (1, 4, 7), (2, 5, 8), (0, 4, 8), (2, 4, 6)] : List Line).find?
      (lineMatches board) with
  | some l => { winner := board l.1, line := some l }
  | none =>
    if (List.finRange 9).all (fun i => (board i).isSome) then
      { winner := some Outcome.D, line := none }
    else
      { winner := none, line := none }

/-- The source loop returns exactly the first line `List.find?` selects,
paired with the value at its first position. -/
theorem findLine_eq_find (board : Fin 9 → Option Outcome) (L : List Line) :
    findLine board L =
      (L.find? (lineMatches board)).bind
        (fun l => (board l.1).map (fun v => (v, l))) := by
  induction L with
  | nil => rfl
  | cons l ls ih =>
    rw [List.find?_cons]
    cases hv : board l.1 with
    | none =>
      have hm : lineMatches board l = false := by simp [lineMatches, hv]
      simp only [findLine, hm, hv]
      exact ih
    | some v =>
      by_cases hbc : board l.2.1 = some v ∧ board l.2.2 = some v
      · have hm : lineMatches board l = true := by
          simp [lineMatches, hv, hbc.1, hbc.2]
        simp only [findLine, hm, hv]
        simp [hbc.1, hbc.2, hv]
      · have hm : lineMatches board l = false := by
          by_contra hmt
          rw [Bool.not_eq_false] at hmt
          simp only [lineMatches, hv, Bool.and_eq_true, beq_iff_eq] at hmt
          exact hbc ⟨hmt.1.2, hmt.2⟩
        simp only [findLine, hm, hv, if_neg hbc]
        exact ih

/-- C6: `checkWin` is the deterministic function described by the spec — it
tests the 8 lines in the fixed order `[0,1,2],[3,4,5],[6,7,8],[0,3,6],
[1,4,7],[2,5,8],[0,4,8],[2,4,6]`, returns the first matching line with its
owner, a draw with no line when nothing matches on a full array, and
undecided otherwise. -/
theorem checkWin_eq_spec (board : Fin 9 → Option Outcome) :
    checkWin board = checkWinSpec board := by
  unfold checkWin checkWinSpec WIN_LINES
  rw [findLine_eq_find]
  cases hf : ([((0 : Fin 9), (1 : Fin 9), (2 : Fin 9)), (3, 4, 5), (6, 7, 8), (0, 3, 6),
      (1, 4, 7), (2, 5, 8), (0, 4, 8), (2, 4, 6)] : List Line).find?
      (lineMatches board) with
  | none => rfl
  | some l =>
    have hp := List.find?_some hf
    have hs : (board l.1).isSome := by
      simp only [lineMatches, Bool.and_eq_true] at hp
      exact hp.1.1
    obtain ⟨v, hv⟩ := Option.isSome_iff_exists.mp hs
    simp [hv]

/-- One replay step: attempt the recorded move, keep the resulting state
whether or not the move was accepted. -/
def replayStep (s : GameState) (m : HistEntry) : GameState :=
  (makeMove s m.board m.cell).2

/-- The engine state after attempting a list of recorded moves in order. -/
def replayFrom (s : GameState) (h : List HistEntry) : GameState :=
  h.foldl replayStep s

theorem buildSnapshotsGo_length (h : List HistEntry) :
    ∀ s : GameState, (buildSnapshotsGo s h).length = h.length := by
  induction h with
  | nil => intro s; rfl
  | cons m rest ih =>
    intro s
    simp only [buildSnapshotsGo, List.length_cons]
    rw [ih]

theorem buildSnapshotsGo_map_fst (h : List HistEntry) :
    ∀ s : GameState, (buildSnapshotsGo s h).map Prod.fst = h := by
  induction h with
  | nil => intro s; rfl
  | cons m rest ih =>
    intro s
    simp only [buildSnapshotsGo, List.map_cons]
    rw [ih]

theorem buildSnapshotsGo_getElem (h : List HistEntry) :
    ∀ (s : GameState) (i : Nat) (hi : i < h.length),
      (buildSnapshotsGo s h)[i]? =
        some (h.get ⟨i, hi⟩, getState (replayFrom s (h.take (i + 1)))) := by
  induction h with
  | nil => intro s i hi; exact absurd hi (by simp)
  | cons m rest ih =>
    intro s i hi
    cases i with
    | zero =>
      simp only [buildSnapshotsGo, List.getElem?_cons_zero, List.get, List.take_succ_cons,
        List.take_zero, replayFrom, List.foldl_cons, List.foldl_nil, replayStep]
    | succ i =>
      simp only [buildSnapshotsGo, List.getElem?_cons_succ, List.get, List.take_succ_cons,
        replayFrom, List.foldl_cons]
      exact ih _ i (Nat.lt_of_succ_lt_succ hi)

theorem replayFrom_take_succ (h : List HistEntry) (i : Nat) (hi : i < h.length)
    (s : GameState) :
    replayFrom s (h.take (i + 1)) = replayStep (replayFrom s (h.take i)) (h.get ⟨i, hi⟩) := by
  unfold replayFrom
  rw [List.take_succ, List.getElem?_eq_getElem hi, Option.toList_some, List.foldl_append]
  rfl

/-- C8: `buildSnapshots` replays its input on a fresh engine and returns one
output entry per input entry — the output length equals the input length,
the entries are the input entries in order, each is paired with the snapshot
of the state right after its `makeMove` attempt, and an attempt that
`makeMove` rejects leaves the replayed state unchanged while still being
recorded. -/
theorem buildSnapshots_replay (h : List HistEntry) :
    (buildSnapshots h).length = h.length ∧
    (buildSnapshots h).map Prod.fst = h ∧
    (∀ (i : Nat) (hi : i < h.length),
      (buildSnapshots h)[i]? =
        some (h.get ⟨i, hi⟩, getState (replayFrom initState (h.take (i + 1))))) ∧
    (∀ (i : Nat) (hi : i < h.length),
      (makeMove (replayFrom initState (h.take i)) (h.get ⟨i, hi⟩).board
          (h.get ⟨i, hi⟩).cell).1 = false →
        replayFrom initState (h.take (i + 1)) = replayFrom initState (h.take i)) := by
  refine ⟨buildSnapshotsGo_length h initState, buildSnapshotsGo_map_fst h initState,
    fun i hi => buildSnapshotsGo_getElem h initState i hi, fun i hi hrej => ?_⟩
  rw [replayFrom_take_succ h i hi]
  exact makeMove_snd_of_false hrej

/-- Witness for C8 on the two-entry list `[(4,4,X), (4,4,O)]` whose second
entry is illegal (cell occupied): the output still has two entries, the
second snapshot equals the state after the rejected attempt, and that state
equals the state after the first move. -/
theorem buildSnapshots_replay_witness :
    (buildSnapshots [⟨4, 4, Outcome.X⟩, ⟨4, 4, Outcome.O⟩]).length = 2 ∧
    (buildSnapshots [⟨4, 4, Outcome.X⟩, ⟨4, 4, Outcome.O⟩])[1]? =
      some (⟨4, 4, Outcome.O⟩,
        getState (replayFrom initState
          (([⟨4, 4, Outcome.X⟩, ⟨4, 4, Outcome.O⟩] : List HistEntry).take 2))) ∧
    replayFrom initState (([⟨4, 4, Outcome.X⟩, ⟨4, 4, Outcome.O⟩] : List HistEntry).take 2) =
      replayFrom initState (([⟨4, 4, Outcome.X⟩, ⟨4, 4, Outcome.O⟩] : List HistEntry).take 1) :=
  ⟨(buildSnapshots_replay [⟨4, 4, Outcome.X⟩, ⟨4, 4, Outcome.O⟩]).1,
   (buildSnapshots_replay [⟨4, 4, Outcome.X⟩, ⟨4, 4, Outcome.O⟩]).2.2.1 1 (by decide),
   (buildSnapshots_replay [⟨4, 4, Outcome.X⟩, ⟨4, 4, Outcome.O⟩]).2.2.2 1 (by decide)
     (by decide)⟩

theorem jsIndex_pos {α : Type} (f : Fin 9 → α) {i : Nat} (h : i < 9) :
    jsIndex f i = some (f ⟨i, h⟩) := dif_pos h

theorem jsIndex_neg {α : Type} (f : Fin 9 → α) {i : Nat} (h : ¬i < 9) :
    jsIndex f i = none := dif_neg h

theorem jsForcedMismatch_iff (forced : Option (Fin 9)) {b : Nat} (hb : b < 9) :
    jsForcedMismatch forced b = true ↔ (forced ≠ none ∧ forced ≠ some ⟨b, hb⟩) := by
  cases forced with
  | none => simp [jsForcedMismatch]
  | some f =>
    simp only [jsForcedMismatch, decide_eq_true_eq, ne_eq, Option.some.injEq]
    constructor
    · intro hne
      exact ⟨by simp, fun hf => hne (by rw [hf])⟩
    · intro hf hbv
      exact hf.2 (Fin.ext hbv.symm)

/-- C10 (implicit): `makeMove` does no bounds checking.  With both indices
in range the dynamic-semantics model agrees with `makeMove` and never
throws; with `board` in range and `cell` out of range the move is silently
rejected with the state unchanged (`undefined !== null`); with `board` out
of range, a non-terminal game and no forced board, reading
`this.boards[board][cell]` throws a `TypeError`. -/
theorem makeMove_no_bounds_check (s : GameState) (b c : Nat) :
    (∀ (hb : b < 9) (hc : c < 9),
      makeMoveJS s b c = Except.ok (makeMove s ⟨b, hb⟩ ⟨c, hc⟩)) ∧
    (b < 9 → 9 ≤ c → makeMoveJS s b c = Except.ok (false, s)) ∧
    (9 ≤ b → s.gameWinner = none → s.forcedBoard = none →
      makeMoveJS s b c = Except.error JSError.typeError) := by
  refine ⟨fun hb hc => ?_, fun hb hc => ?_, fun hb hgw hfb => ?_⟩
  · unfold makeMoveJS makeMove
    by_cases h1 : s.gameWinner ≠ none
    · rw [if_pos h1, if_pos h1]
    · rw [if_neg h1, if_neg h1]
      rw [jsIndex_pos s.boardWinners hb]
      have hj : (some (s.boardWinners ⟨b, hb⟩)).join = s.boardWinners ⟨b, hb⟩ := rfl
      rw [hj]
      by_cases h2 : s.boardWinners ⟨b, hb⟩ ≠ none
      · rw [if_pos h2, if_pos h2]
      · rw [if_neg h2, if_neg h2]
        by_cases h3 : s.forcedBoard ≠ none ∧ s.forcedBoard ≠ some ⟨b, hb⟩
        · rw [if_pos ((jsForcedMismatch_iff s.forcedBoard hb).mpr h3), if_pos h3]
        · rw [if_neg (fun hh => h3 ((jsForcedMismatch_iff s.forcedBoard hb).mp hh)),
            if_neg h3, dif_pos hb, dif_pos hc]
          by_cases h4 : s.boards ⟨b, hb⟩ ⟨c, hc⟩ ≠ none
          · rw [if_pos h4, if_pos h4]
          · rw [if_neg h4, if_neg h4]
  · unfold makeMoveJS
    split_ifs <;> first | rfl | omega
  · unfold makeMoveJS
    rw [if_neg (by simp [hgw]), jsIndex_neg s.boardWinners (by omega)]
    rw [if_neg (by simp), hfb]
    rw [if_neg (by simp [jsForcedMismatch]), dif_neg (by omega)]

/-- Witness for C10: from the initial state, `(4,4)` is in range and agrees
with `makeMove`; `(4,12)` is silently rejected; `(12,4)` throws. -/
theorem makeMove_no_bounds_check_witness :
    makeMoveJS initState 4 4 = Except.ok (makeMove initState 4 4) ∧
    makeMoveJS initState 4 12 = Except.ok (false, initState) ∧
    makeMoveJS initState 12 4 = Except.error JSError.typeError :=
  ⟨(makeMove_no_bounds_check initState 4 4).1 (by decide) (by decide),
   (makeMove_no_bounds_check initState 4 12).2.1 (by decide) (by decide),
   (makeMove_no_bounds_check initState 12 4).2.2 (by decide) rfl rfl⟩

end UTTT
